import Mathlib

set_option maxRecDepth 400000

/-!
Verification of the agent core in `src/agent.py` (Nikolay1221/ai-agent).

Python strings are modelled as `List Char` (a Python `str` is a sequence of
Unicode code points).  Python dicts coming from `json.loads` keep insertion
order, so JSON objects are modelled as ordered association lists.  Machine
integers do not occur (Python ints are unbounded), so `Int`/`Nat` are used
directly.  Fallible Python code (code that can raise) is modelled with
`Except PyErr`.  JSON floats never occur in the data the claims touch and are
outside the model: the `loads` parser rejects fractional/exponent literals.
-/

namespace AgentSpec

/-- Python `str` modelled as a list of Unicode code points. -/
abbrev Str := List Char

/-- Shorthand turning a Lean string literal into the `Str` model. -/
def S (s : String) : Str := s.data

/-- The whitespace set used by Python `str.split()` for ASCII text
(space, tab, newline, carriage return, vertical tab, form feed). -/
def pyIsSpace (c : Char) : Bool :=
  c = ' ' || c = '\t' || c = '\n' || c = '\r' || c = '\x0b' || c = '\x0c'

/-- Helper for `countWords`: counts maximal runs of non-whitespace characters.
The boolean flag records whether the previous character was part of a word. -/
def cwAux : Bool → Str → Nat
  | _, [] => 0
  | inWord, c :: rest =>
    if pyIsSpace c then cwAux false rest
    else (if inWord then 0 else 1) + cwAux true rest

/-- `len(text.split())` from `estimate_tokens` in src/agent.py: the number of
maximal whitespace-separated words of a Python string. -/
def countWords (t : Str) : Nat := cwAux false t

/-- `estimate_tokens` (src/agent.py lines 11-27):
`max(len(text) // 4, len(text.split()))`.  Note the source uses `len(text)`,
the number of code points, not the UTF-8 byte length. -/
def estimate_tokens (t : Str) : Nat := max (t.length / 4) (countWords t)

/-- UTF-8 byte length of a Python string (`len(text.encode())`); used only to
state the spec's version of the token estimate. -/
def byteLen (t : Str) : Nat := (t.map Char.utf8Size).sum

/-- Modelled from the spec's words (section 4.4, step 5): the token estimate
described by the spec, `max(wordCount, byteLength / 4)`, to be compared with
`estimate_tokens`, which the source computes from the code-point length. -/
def estimateSpecBytes (t : Str) : Nat := max (countWords t) (byteLen t / 4)

mutual
/-- JSON values as produced by Python `json.loads` and consumed by
`json.dumps`.  Objects are ordered association lists (Python dicts preserve
insertion order).  Floats are outside the model. -/
inductive Json where
  | null : Json
  | bool (b : Bool) : Json
  | num (n : Int) : Json
  | str (s : Str) : Json
  | arr (items : JsonList) : Json
  | obj (fields : JsonFields) : Json

/-- A list of JSON values (elements of a JSON array). -/
inductive JsonList where
  | nil : JsonList
  | cons (hd : Json) (tl : JsonList) : JsonList

/-- The ordered fields of a JSON object. -/
inductive JsonFields where
  | nil : JsonFields
  | cons (key : Str) (val : Json) (tl : JsonFields) : JsonFields
end

/-- Convert a meta-level list of values into a `JsonList`. -/
def JsonList.ofList : List Json → JsonList
  | [] => .nil
  | x :: xs => .cons x (JsonList.ofList xs)

/-- Convert the fields of an object from a meta-level list. -/
def JsonFields.ofList : List (Str × Json) → JsonFields
  | [] => .nil
  | (k, v) :: xs => .cons k v (JsonFields.ofList xs)

/-- Sugar: JSON string from a Lean literal. -/
def jstr (s : String) : Json := .str (S s)

/-- Sugar: JSON array from a meta-level list. -/
def jarr (l : List Json) : Json := .arr (JsonList.ofList l)

/-- Sugar: JSON object from a meta-level list of fields. -/
def jobj (l : List (String × Json)) : Json :=
  .obj (JsonFields.ofList (l.map fun p => (S p.1, p.2)))

/-- Python `dict` lookup on an ordered field list (first binding wins, as in a
dict built by `json.loads`, whose keys are unique). -/
def JsonFields.lookup : JsonFields → Str → Option Json
  | .nil, _ => none
  | .cons k v tl, key => if k = key then some v else tl.lookup key

/-- Python `key in dict`. -/
def JsonFields.hasKey (fs : JsonFields) (key : Str) : Bool :=
  (fs.lookup key).isSome

/-- Python `dict.get(key, default)`. -/
def JsonFields.getD (fs : JsonFields) (key : Str) (default : Json) : Json :=
  (fs.lookup key).getD default

/-- Python truthiness of a JSON value (`bool(x)`). -/
def pyTruthy : Json → Bool
  | .null => false
  | .bool b => b
  | .num n => n != 0
  | .str s => !s.isEmpty
  | .arr .nil => false
  | .arr (.cons _ _) => true
  | .obj .nil => false
  | .obj (.cons _ _ _) => true

/-- Python `==` between a JSON value and a string constant: only equal strings
compare equal. -/
def pyEqStr (j : Json) (s : Str) : Bool :=
  match j with
  | .str t => t == s
  | _ => false

/-- Python `==` between a JSON value and an int constant.  Python booleans are
ints (`True == 1`), so `bool` values participate. -/
def pyEqInt (j : Json) (n : Int) : Bool :=
  match j with
  | .num m => m == n
  | .bool b => (if b then (1 : Int) else 0) == n
  | _ => false

/-- Python `isinstance(x, dict)`. -/
def isObj : Json → Bool
  | .obj _ => true
  | _ => false

end AgentSpec

/-- Indentation produced by `json.dumps(..., indent=2)` at nesting depth `n`. -/
def AgentSpec.pad (n : Nat) : AgentSpec.Str := List.replicate (2 * n) ' '

namespace AgentSpec

/-- Lower-case hexadecimal digit. -/
def hexDigit (n : Nat) : Char :=
  if n < 10 then Char.ofNat ('0'.toNat + n) else Char.ofNat ('a'.toNat + (n - 10))

/-- One character of Python's JSON string escaping with `ensure_ascii=False`:
`"` and `\` are escaped, control characters below 0x20 use the short escapes
where they exist and `\u00XX` otherwise; everything else is passed through. -/
def escChar (c : Char) : Str :=
  if c = '"' then ['\\', '"']
  else if c = '\\' then ['\\', '\\']
  else if c = '\n' then ['\\', 'n']
  else if c = '\r' then ['\\', 'r']
  else if c = '\t' then ['\\', 't']
  else if c = '\x08' then ['\\', 'b']
  else if c = '\x0c' then ['\\', 'f']
  else if c.toNat < 0x20 then
    ['\\', 'u', '0', '0', hexDigit (c.toNat / 16), hexDigit (c.toNat % 16)]
  else [c]

/-- Escape the body of a JSON string. -/
def escStr : Str → Str
  | [] => []
  | c :: rest => escChar c ++ escStr rest

/-- `json.dumps` of a Python string: quoted, escaped. -/
def quoteStr (s : Str) : Str := '"' :: escStr s ++ ['"']

/-- `json.dumps` of a Python int (decimal representation, `-` sign). -/
def intRepr (n : Int) : Str := (toString n).data

mutual
/-- `json.dumps(v, indent=2, ensure_ascii=False)` at nesting depth `ind`:
each element of a non-empty array/object is placed on its own line, indented
two spaces per level; separators are `,` and `: `. -/
def dumpsVal : Nat → Json → Str
  | _, .null => S "null"
  | _, .bool true => S "true"
  | _, .bool false => S "false"
  | _, .num n => intRepr n
  | _, .str s => quoteStr s
  | _, .arr .nil => S "[]"
  | ind, .arr (.cons x xs) =>
    '[' :: '\n' :: dumpsItems (ind + 1) (.cons x xs) ++ '\n' :: pad ind ++ [']']
  | _, .obj .nil => S "\x7b\x7d"
  | ind, .obj (.cons k v fs) =>
    '\x7b' :: '\n' :: dumpsFields (ind + 1) (.cons k v fs) ++ '\n' :: pad ind ++ ['\x7d']

/-- The comma-and-newline separated items of a non-empty array
(empty lists do not occur: `dumpsVal` handles them separately). -/
def dumpsItems : Nat → JsonList → Str
  | _, .nil => []
  | ind, .cons x .nil => pad ind ++ dumpsVal ind x
  | ind, .cons x (.cons y ys) =>
    pad ind ++ dumpsVal ind x ++ ',' :: '\n' :: dumpsItems ind (.cons y ys)

/-- The comma-and-newline separated fields of a non-empty object. -/
def dumpsFields : Nat → JsonFields → Str
  | _, .nil => []
  | ind, .cons k v .nil => pad ind ++ quoteStr k ++ ':' :: ' ' :: dumpsVal ind v
  | ind, .cons k v (.cons k2 v2 fs) =>
    pad ind ++ quoteStr k ++ ':' :: ' ' :: dumpsVal ind v ++
      ',' :: '\n' :: dumpsFields ind (.cons k2 v2 fs)
end

/-- `json.dumps(history_list, indent=2, ensure_ascii=False)` as used on the
trimmed history in `_create_reasoning_prompt`. -/
def dumpsTop (l : List Json) : Str := dumpsVal 0 (.arr (JsonList.ofList l))

end AgentSpec

namespace AgentSpec

/-- JSON whitespace accepted by Python `json.loads` between tokens
(space, tab, newline, carriage return). -/
def jsonWs (c : Char) : Bool :=
  c = ' ' || c = '\t' || c = '\n' || c = '\r'

/-- An ASCII decimal digit. -/
def isDigitCh (c : Char) : Bool := '0' ≤ c && c ≤ '9'

/-- An ASCII hexadecimal digit. -/
def isHexCh (c : Char) : Bool :=
  isDigitCh c || ('a' ≤ c && c ≤ 'f') || ('A' ≤ c && c ≤ 'F')

/-- Numeric value of a hexadecimal digit. -/
def hexVal (c : Char) : Nat :=
  if isDigitCh c then c.toNat - '0'.toNat
  else if 'a' ≤ c && c ≤ 'f' then c.toNat - 'a'.toNat + 10
  else c.toNat - 'A'.toNat + 10

/-- Parse the body of a JSON string literal after the opening quote, following
Python's strict `json` scanner: `"` ends the string, `\` starts one of the
escapes `\" \\ \/ \b \f \n \r \t \uXXXX`, and raw control characters below
0x20 are rejected.  Surrogate-pair recombination is outside the model (the
concrete inputs of this development contain no `\u` escapes). -/
def parseStrBody : Nat → Str → Option (Str × Str)
  | 0, _ => none
  | _, [] => none
  | fuel + 1, c :: rest =>
    if c = '"' then some ([], rest)
    else if c = '\\' then
      match rest with
      | [] => none
      | e :: rest2 =>
        if e = '"' || e = '\\' || e = '/' then
          (parseStrBody fuel rest2).map fun p => (e :: p.1, p.2)
        else if e = 'b' then
          (parseStrBody fuel rest2).map fun p => ('\x08' :: p.1, p.2)
        else if e = 'f' then
          (parseStrBody fuel rest2).map fun p => ('\x0c' :: p.1, p.2)
        else if e = 'n' then
          (parseStrBody fuel rest2).map fun p => ('\n' :: p.1, p.2)
        else if e = 'r' then
          (parseStrBody fuel rest2).map fun p => ('\r' :: p.1, p.2)
        else if e = 't' then
          (parseStrBody fuel rest2).map fun p => ('\t' :: p.1, p.2)
        else if e = 'u' then
          match rest2 with
          | h1 :: h2 :: h3 :: h4 :: rest3 =>
            if isHexCh h1 && isHexCh h2 && isHexCh h3 && isHexCh h4 then
              let code := ((hexVal h1 * 16 + hexVal h2) * 16 + hexVal h3) * 16 + hexVal h4
              (parseStrBody fuel rest3).map fun p => (Char.ofNat code :: p.1, p.2)
            else none
          | _ => none
        else none
    else if c.toNat < 0x20 then none
    else (parseStrBody fuel rest).map fun p => (c :: p.1, p.2)

/-- Parse a run of decimal digits, returning its value, its length and the
rest of the input. -/
def parseDigits : Str → Nat → Nat → (Nat × Nat × Str)
  | [], acc, len => (acc, len, [])
  | c :: rest, acc, len =>
    if isDigitCh c then parseDigits rest (acc * 10 + (c.toNat - '0'.toNat)) (len + 1)
    else (acc, len, c :: rest)

mutual
/-- Recursive-descent JSON value parser mirroring Python `json.loads`:
returns the parsed value and the unconsumed input.  Leading whitespace must
already be consumed.  Numbers with a fraction or exponent (floats) and the
non-standard `NaN`/`Infinity` literals are outside the model and rejected.
Leading zeros are rejected as in the JSON grammar. -/
def parseVal : Nat → Str → Option (Json × Str)
  | 0, _ => none
  | _, [] => none
  | fuel + 1, c :: rest =>
    if c = 'n' then
      match c :: rest with
      | 'n' :: 'u' :: 'l' :: 'l' :: r => some (.null, r)
      | _ => none
    else if c = 't' then
      match c :: rest with
      | 't' :: 'r' :: 'u' :: 'e' :: r => some (.bool true, r)
      | _ => none
    else if c = 'f' then
      match c :: rest with
      | 'f' :: 'a' :: 'l' :: 's' :: 'e' :: r => some (.bool false, r)
      | _ => none
    else if c = '"' then
      (parseStrBody (rest.length + 1) rest).map fun p => (.str p.1, p.2)
    else if c = '-' || isDigitCh c then
      let neg := c = '-'
      let digs := if neg then rest else c :: rest
      match parseDigits digs 0 0 with
      | (v, len, r) =>
        if len = 0 then none
        else if len > 1 && digs.head? = some '0' then none
        else
          match r with
          | d :: _ =>
            if d = '.' || d = 'e' || d = 'E' then none
            else some (.num (if neg then -(v : Int) else (v : Int)), r)
          | [] => some (.num (if neg then -(v : Int) else (v : Int)), r)
    else if c = '[' then
      match rest.dropWhile jsonWs with
      | ']' :: r => some (.arr .nil, r)
      | r => parseItems fuel r
    else if c = '\x7b' then
      match rest.dropWhile jsonWs with
      | '\x7d' :: r => some (.obj .nil, r)
      | r => parseFields fuel r
    else none

/-- Parse the remaining comma-separated items of a non-empty JSON array,
starting at (possibly whitespace-preceded) first item. -/
def parseItems : Nat → Str → Option (Json × Str)
  | 0, _ => none
  | fuel + 1, input =>
    match parseVal fuel input with
    | none => none
    | some (v, r) =>
      match r.dropWhile jsonWs with
      | ',' :: r2 =>
        match parseItems fuel (r2.dropWhile jsonWs) with
        | some (.arr items, r3) => some (.arr (.cons v items), r3)
        | _ => none
      | ']' :: r2 => some (.arr (.cons v .nil), r2)
      | _ => none

/-- Parse the remaining comma-separated fields of a non-empty JSON object,
starting at the first key. -/
def parseFields : Nat → Str → Option (Json × Str)
  | 0, _ => none
  | fuel + 1, input =>
    match input with
    | '"' :: rest =>
      match parseStrBody (rest.length + 1) rest with
      | none => none
      | some (key, r) =>
        match r.dropWhile jsonWs with
        | ':' :: r2 =>
          match parseVal fuel (r2.dropWhile jsonWs) with
          | none => none
          | some (v, r3) =>
            match r3.dropWhile jsonWs with
            | ',' :: r4 =>
              match parseFields fuel (r4.dropWhile jsonWs) with
              | some (.obj fs, r5) => some (.obj (.cons key v fs), r5)
              | _ => none
            | '\x7d' :: r4 => some (.obj (.cons key v .nil), r4)
            | _ => none
        | _ => none
    | _ => none
end

/-- A raised Python exception, by class. -/
inductive PyErr where
  | attributeError : PyErr
  | typeError : PyErr
  | valueError : PyErr
  | runtimeError : PyErr
deriving DecidableEq, Repr

/-- `json.loads(text)`: parse one JSON value surrounded only by whitespace.
`Except` carries `JSONDecodeError` as `.error`; in the agent this exception is
always caught where `loads` is called, so the error value itself is opaque. -/
def loads (t : Str) : Except Unit Json :=
  match parseVal (t.length + 1) (t.dropWhile jsonWs) with
  | some (v, r) => if (r.dropWhile jsonWs).isEmpty then .ok v else .error ()
  | none => .error ()

end AgentSpec

namespace AgentSpec

/-- Does `old` occur as a contiguous substring of `t` (Python `old in t`)? -/
def occursIn (old : Str) : Str → Bool
  | [] => old.isEmpty
  | c :: rest => old.isPrefixOf (c :: rest) || occursIn old rest

/-- Worker for `pyReplace`: scan left to right; at the first position where
`old` matches, emit `new`, consume the occurrence and keep scanning after it
(Python's non-overlapping left-to-right `str.replace`).  The fuel argument
makes the recursion structural; `pyReplace` passes the input length, which
suffices because every step consumes at least one character. -/
def pyReplaceAux (old new : Str) : Nat → Str → Str
  | _, [] => []
  | 0, t => t
  | fuel + 1, c :: rest =>
    if old.isPrefixOf (c :: rest) then
      new ++ pyReplaceAux old new fuel (rest.drop (old.length - 1))
    else c :: pyReplaceAux old new fuel rest

/-- Python `t.replace(old, new)` for a non-empty pattern `old`. -/
def pyReplace (t old new : Str) : Str := pyReplaceAux old new t.length t

/-- The fixed system prompt of `_create_reasoning_prompt` (line 177). -/
def systemPrompt : Str :=
  S "You are a VK messaging assistant. You can search users, get dialogs, get message history, and chat with people. Always respond with valid JSON."

/-- `max_context_tokens = 5000 - estimate_tokens(system_prompt)` (line 179);
this is the token ceiling the final prompt is checked against. -/
def maxContextTokens : Nat := 5000 - estimate_tokens systemPrompt

/-- `_load_tools_hints` (lines 280-289): the fixed tool-hint block. -/
def toolsHints : Str :=
  S "Available tools:\n1. \"messages\" tool with method \"get_unread_messages\" - получить непрочитанные сообщения\n2. \"messages\" tool with method \"get_conversations\" - получить список диалогов\n3. \"messages\" tool with method \"get_history\" - получить историю сообщений (peer_id, count=10)\n4. \"messages\" tool with method \"send_message\" - отправить сообщение (peer_id, message)\n5. \"messages\" tool with method \"await_any_event\" - ждать новые сообщения (duration_s=60)\n\nАлгоритм общения: получить непрочитанные → получить диалоги → написать всем."

/-- The literal text `\x7bHISTORY_PLACEHOLDER\x7d` that the template carries
(produced by the doubled braces of the f-string, line 189). -/
def historyPlaceholder : Str := S "\x7bHISTORY_PLACEHOLDER\x7d"

/-- The part of `base_prompt_template` before the history placeholder: the
f-string interpolates `task` and the tool hints (lines 185-189). -/
def templatePre (task : Str) : Str :=
  S "VK messaging assistant. Task: \"" ++ task ++ S "\"\n\nTools: " ++
    toolsHints ++ S "\n\nHistory: "

/-- The part of `base_prompt_template` after the history placeholder
(lines 189-206); the doubled braces of the f-string render as single ones. -/
def templatePost : Str :=
  S "\n\nПРОСТОЙ АЛГОРИТМ ПЕРЕПИСКИ:\n1. Получить непрочитанные сообщения: messages.get_unread_messages\n2. Ответить на каждое сообщение: messages.send_message (peer_id, \"Привет! Как дела?\")\n3. Ждать новые сообщения: messages.await_any_event (duration_s=60)\n\nВАЖНО: \n- Отвечай на каждое непрочитанное сообщение\n- Пиши только на русском языке\n- Будь дружелюбным и общительным\n\nПРИМЕРЫ:\nПолучить сообщения: `\x7b\"tool\": \"messages\", \"arguments\": \x7b\"method\": \"get_unread_messages\", \"params\": \x7b\x7d\x7d\x7d`\nОтветить: `\x7b\"tool\": \"messages\", \"arguments\": \x7b\"method\": \"send_message\", \"params\": \x7b\"peer_id\": \"821539637\", \"message\": \"Привет! Как дела?\"\x7d\x7d\x7d`\nЖдать: `\x7b\"tool\": \"messages\", \"arguments\": \x7b\"method\": \"await_any_event\", \"params\": \x7b\"duration_s\": 60\x7d\x7d\x7d`\n\nJSON response:"

/-- `base_prompt_template` (lines 185-206): the placeholder occurs literally
between the two fixed parts. -/
def basePromptTemplate (task : Str) : Str :=
  templatePre task ++ historyPlaceholder ++ templatePost

/-- `base_prompt_template.replace("\x7bHISTORY_PLACEHOLDER\x7d", json.dumps(hist,
indent=2, ensure_ascii=False))` — the serialized prompt for a candidate
history (lines 219-220 and 230-231). -/
def renderPrompt (task : Str) (hist : List Json) : Str :=
  pyReplace (basePromptTemplate task) historyPlaceholder (dumpsTop hist)

/-- The greedy trimming loop of `_create_reasoning_prompt` (lines 209-227):
walk the reversed history; prepend each item to the accumulator when the
serialized test prompt stays at or under the ceiling `C`; stop at the first
item that would exceed it.  `C` stands for `max_context_tokens`. -/
def limitedLoop (C : Nat) (task : Str) : List Json → List Json → List Json
  | [], acc => acc
  | item :: rest, acc =>
    if estimate_tokens (renderPrompt task (item :: acc)) ≤ C then
      limitedLoop C task rest (item :: acc)
    else acc

/-- `limited_history` as computed by the loop, for ceiling `C`. -/
def limitedHistory (C : Nat) (task : Str) (history : List Json) : List Json :=
  limitedLoop C task history.reverse []

/-- `_create_reasoning_prompt` (lines 174-278).  The final prompt is checked
against the ceiling (line 241); on the over-limit branch the code evaluates
the `minimal_prompt` f-string whose line 268 contains `\x7b"action": \x7b...\x7d\x7d`
with single braces: Python parses it as a replacement field with format spec
` Ellipsis` and raises `ValueError: Invalid format specifier`, so the
fallback branch raises instead of returning. -/
def createReasoningPrompt (task : Str) (history : List Json) :
    Except PyErr (Str × Bool × Nat) :=
  let L := limitedHistory maxContextTokens task history
  let prompt := renderPrompt task L
  if maxContextTokens < estimate_tokens prompt then
    .error .valueError
  else
    let needsReset := decide (L.length < history.length) && decide (0 < history.length)
    .ok (prompt, needsReset, if needsReset then L.length else history.length)

end AgentSpec

namespace AgentSpec

/-- The lazy tail of `re.search(r'(\x7b.*?\x7d)', text, re.DOTALL)`: the prefix of
the input up to and including the first `\x7d`, if any. -/
def takeUntilClose : Str → Option Str
  | [] => none
  | c :: rest =>
    if c = '\x7d' then some [c] else (takeUntilClose rest).map (c :: ·)

/-- `re.search(r'(\x7b.*?\x7d)', response, re.DOTALL)` (line 364): leftmost
match of a lazy brace span — from the first `\x7b` that has a later `\x7d`, up to
the first `\x7d` after it. -/
def regexBraceLazy : Str → Option Str
  | [] => none
  | c :: rest =>
    if c = '\x7b' then
      match takeUntilClose rest with
      | some body => some ('\x7b' :: body)
      | none => regexBraceLazy rest
    else regexBraceLazy rest

/-- Lazy body scan for the fenced pattern: extend `.*?` until the first `\x7d`
that is followed by optional whitespace and a closing triple backtick. -/
def fencedBody : Str → Option Str
  | [] => none
  | c :: rest =>
    if c = '\x7d' && (S "```").isPrefixOf (rest.dropWhile pyIsSpace) then
      some [c]
    else (fencedBody rest).map (c :: ·)

/-- Attempt the fenced pattern with the literal ```` ```json ```` already
consumed: skip whitespace greedily, require `\x7b`, then scan lazily for a close
brace followed by `\s*` and ```` ``` ````. -/
def fencedAt (t : Str) : Option Str :=
  match t.dropWhile pyIsSpace with
  | '\x7b' :: body => (fencedBody body).map ('\x7b' :: ·)
  | _ => none

/-- `re.search` of the fenced pattern (line 362,
```` ```json\s*(\x7b.*?\x7d)\s*``` ```` with DOTALL): try each start position left
to right; the group is the brace span. -/
def regexFenced : Str → Option Str
  | [] => none
  | c :: rest =>
    if (S "```json").isPrefixOf (c :: rest) then
      match fencedAt ((c :: rest).drop 7) with
      | some g => some g
      | none => regexFenced rest
    else regexFenced rest

/-- Lines 362-364: prefer the fenced match, fall back to the bare lazy brace
match. -/
def chooseMatch (response : Str) : Option Str :=
  match regexFenced response with
  | some g => some g
  | none => regexBraceLazy response

/-- Python `x in j` for a string constant `x` (line 375, 378, 419): key
membership for dicts, substring test for strings, element equality for lists;
`in` on numbers, booleans or `None` raises `TypeError`. -/
def listContainsStr (needle : Str) : JsonList → Bool
  | .nil => false
  | .cons x tl => pyEqStr x needle || listContainsStr needle tl

/-- See `listContainsStr`; the dispatching `in` operator itself. -/
def pyContains (needle : Str) (j : Json) : Except PyErr Bool :=
  match j with
  | .obj fs => .ok (fs.hasKey needle)
  | .str s => .ok (occursIn needle s)
  | .arr xs => .ok (listContainsStr needle xs)
  | _ => .error .typeError

/-- Python `j[key]` for a string key (line 379, 376): dict lookup; indexing a
string or list with a string raises `TypeError`; a missing dict key raises
`KeyError` — both fatal here, neither is caught by the loop. -/
def pyIndexKey (j : Json) (key : Str) : Except PyErr Json :=
  match j with
  | .obj fs =>
    match fs.lookup key with
    | some v => .ok v
    | none => .error .typeError
  | _ => .error .typeError

/-- Lines 374-376: unwrap a one-level `\x7b"action": \x7b...\x7d\x7d` envelope — only
when the value under `"action"` is itself a dict. -/
def unwrapEnvelope (a : Json) : Except PyErr Json :=
  match pyContains (S "action") a with
  | .error e => .error e
  | .ok false => .ok a
  | .ok true =>
    match a with
    | .obj fs =>
      match fs.lookup (S "action") with
      | some v => if isObj v then .ok v else .ok a
      | none => .ok a
    | _ => .error .typeError

/-- Line 419: `[item.get("text") for item in result["content"] if "text" in
item]`.  For each item the membership test runs first (it can raise
`TypeError`), then `item.get` (which raises `AttributeError` on a non-dict). -/
def extractCaps : JsonList → Except PyErr (List Json)
  | .nil => .ok []
  | .cons item tl =>
    match pyContains (S "text") item with
    | .error e => .error e
    | .ok true =>
      match item with
      | .obj fs =>
        match extractCaps tl with
        | .error e => .error e
        | .ok caps => .ok (fs.getD (S "text") .null :: caps)
      | _ => .error .attributeError
    | .ok false => extractCaps tl

/-- The history item appended when no JSON object is found (line 368). -/
def reasoningErrorItem (resp : Str) : Json :=
  jobj [("action", jstr "reasoning_error"), ("raw_response", .str resp),
        ("error", jstr "No JSON object found")]

/-- The history item appended when `json.loads` fails on the extracted span
(line 405).  The real `str(e)` carries a position-dependent message; only the
exception class is modelled, no claim inspects the text. -/
def parsingErrorItemDecode (resp : Str) : Json :=
  jobj [("action", jstr "parsing_error"), ("raw_response", .str resp),
        ("error", jstr "JSONDecodeError")]

/-- The history item appended when the tool-call shape is invalid (lines
400-401 raise `ValueError("Invalid tool call structure in Gemma3 4B
response")`, caught at line 403). -/
def parsingErrorItemStructure (resp : Str) : Json :=
  jobj [("action", jstr "parsing_error"), ("raw_response", .str resp),
        ("error", jstr "Invalid tool call structure in Gemma3 4B response")]

/-- The history item recording a dispatched tool call (line 428). -/
def toolRecord (toolName args result : Json) : Json :=
  jobj [("action", jobj [("tool", toolName), ("arguments", args)]),
        ("result", result)]

/-- The emergency-correction history item (line 443). -/
def correctionItem (c : Str) : Json :=
  jobj [("action", jstr "emergency_correction"),
        ("result", jobj [("user_feedback", .str c)])]

/-- The rejected-final-answer history item (lines 390-393); empty feedback
falls back to the default text (`or` on a falsy string). -/
def finalRejectedItem (v : Json) (feedback : Str) : Json :=
  jobj [("action", jobj [("final_answer_proposed", v)]),
        ("result", jobj [("user_feedback",
          .str (if feedback.isEmpty then S "User rejected the answer." else feedback))])]

/-- The observable outcome of one pass through the body of `run`'s loop. -/
structure StepResult where
  /-- In-memory history when the pass ends. -/
  history : List Json
  /-- Step counter when the pass ends. -/
  step : Nat
  /-- Full-history snapshots written to `history.json` during the pass. -/
  writes : List (List Json)
  /-- The tool call dispatched through the transport, if any. -/
  dispatched : Option (Json × Json)
  /-- Whether the loop exited via the final-answer break. -/
  terminal : Bool

/-- Lines 427-448: append the tool record, write `history.json` (an `IOError`
is caught and logged, the write is simply lost), then append an emergency
correction if the correction file holds non-empty stripped text, then
`step += 1`.  The snapshot written precedes the correction append. -/
def finishStep (historyAfterTool : List Json) (step : Nat) (toolName args : Json)
    (correction : Option Str) (diskOk : Bool) : StepResult :=
  let writes := if diskOk then [historyAfterTool] else []
  let history2 :=
    match correction with
    | some c => if c.isEmpty then historyAfterTool else historyAfterTool ++ [correctionItem c]
    | none => historyAfterTool
  ⟨history2, step + 1, writes, some (toolName, args), false⟩

/-- One pass through the body of `run`'s loop from the model response onward
(lines 360-448), given: the in-memory history and step counter, the backend
response text, an oracle for `call_mcp_tool`'s return value, the `input()`
feedback text, the stripped content of `correction.txt` (if the file exists),
and whether the `history.json` write succeeds.  `.error` is an uncaught
exception escaping the loop. -/
def runStep (history : List Json) (step : Nat) (response : Str)
    (toolResult : Json → Json → Json) (feedback : Str) (correction : Option Str)
    (diskOk : Bool) : Except PyErr StepResult :=
  match chooseMatch response with
  | none => .ok ⟨history ++ [reasoningErrorItem response], step, [], none, false⟩
  | some actionStr =>
    match loads actionStr with
    | .error _ => .ok ⟨history ++ [parsingErrorItemDecode response], step, [], none, false⟩
    | .ok action0 =>
      match unwrapEnvelope action0 with
      | .error e => .error e
      | .ok action =>
        match pyContains (S "final_answer") action with
        | .error e => .error e
        | .ok true =>
          match pyIndexKey action (S "final_answer") with
          | .error e => .error e
          | .ok v =>
            if pyEqStr v (S "Your detailed answer here.") then
              .ok ⟨history, step, [], none, true⟩
            else
              .ok ⟨history ++ [finalRejectedItem v feedback], step + 1, [], none, false⟩
        | .ok false =>
          match action with
          | .obj fs =>
            let toolName := fs.getD (S "tool") .null
            let toolArgs := (fs.lookup (S "arguments")).getD (jobj [])
            if !pyTruthy toolName || !isObj toolArgs then
              .ok ⟨history ++ [parsingErrorItemStructure response], step, [], none, false⟩
            else
              let result := toolResult toolName toolArgs
              let method :=
                match toolArgs with
                | .obj afs => afs.getD (S "method") .null
                | _ => .null
              let h1 := history ++ [toolRecord toolName toolArgs result]
              if pyEqStr method (S "__capabilities__") then
                if pyTruthy result then
                  match result with
                  | .obj rfs =>
                    if !pyTruthy (rfs.getD (S "isError") .null) then
                      match rfs.lookup (S "content") with
                      | some (.arr items) =>
                        match extractCaps items with
                        | .error e => .error e
                        | .ok caps =>
                          if caps.isEmpty then
                            .ok (finishStep h1 step toolName toolArgs correction diskOk)
                          else
                            .error .attributeError
                      | _ => .ok (finishStep h1 step toolName toolArgs correction diskOk)
                    else .ok (finishStep h1 step toolName toolArgs correction diskOk)
                  | _ => .error .attributeError
                else .ok (finishStep h1 step toolName toolArgs correction diskOk)
              else .ok (finishStep h1 step toolName toolArgs correction diskOk)
          | _ => .error .attributeError

end AgentSpec

namespace AgentSpec

/-- The empty dict `\x7b\x7d` that `_wait_for_response` uses as its empty/error
marker. -/
def emptyObj : Json := .obj .nil

/-- `_wait_for_response` (lines 148-163), modelled over the finite list of
queue lines that arrive before the timeout expires: unparsable lines are
skipped (the `JSONDecodeError` is caught), messages whose `id` does not equal
the awaited id are dropped, the first match returns `\x7b\x7d` if it carries an
`error` field and `response.get('result', \x7b\x7d)` otherwise, and exhausting the
lines (the timeout) returns `\x7b\x7d`.  A line that parses to a non-dict JSON
value makes `response.get('id')` raise `AttributeError`, which nothing
catches. -/
def waitForResponse (rid : Int) : List Str → Except PyErr Json
  | [] => .ok emptyObj
  | line :: rest =>
    match loads line with
    | .error _ => waitForResponse rid rest
    | .ok (.obj fs) =>
      if pyEqInt (fs.getD (S "id") .null) rid then
        if fs.hasKey (S "error") then .ok emptyObj
        else .ok (fs.getD (S "result") emptyObj)
      else waitForResponse rid rest
    | .ok _ => .error .attributeError

/-- The `notifications/initialized` payload sent on entering Ready
(line 137). -/
def initializedNotification : Json :=
  jobj [("jsonrpc", jstr "2.0"), ("method", jstr "notifications/initialized")]

/-- `msg.get('params', \x7b\x7d).get('tools', [])` (line 126): the inner `get`
raises `AttributeError` when `params` is present but not a dict. -/
def toolsOfMsg (fs : JsonFields) : Except PyErr Json :=
  match fs.getD (S "params") emptyObj with
  | .obj ps => .ok (ps.getD (S "tools") (jarr []))
  | _ => .error .attributeError

/-- The message-consuming loop of `_perform_handshake` (lines 111-135) over
the finite list of stdout lines arriving inside the window: state is the
`got_init_response` flag and the current `tool_names` value (initially the
empty list).  A message whose `id` equals the init id sets the flag; otherwise
a `tools_ready` notification replaces `tool_names`; after each parsed message
the loop breaks once the flag is set and `tool_names` is truthy.  Exhausting
the lines is the timeout: `shutdown()` then `RuntimeError("Handshake timed
out")`.  On success the coordinator sends `notifications/initialized` and
returns the tool names (lines 137-139). -/
def handshakeLoop (initId : Int) : List Str → Bool → Json → Except PyErr (Json × Json)
  | [], _, _ => .error .runtimeError
  | line :: rest, gotInit, toolNames =>
    match loads line with
    | .error _ => handshakeLoop initId rest gotInit toolNames
    | .ok (.obj fs) =>
      if pyEqInt (fs.getD (S "id") .null) initId then
        if pyTruthy toolNames then .ok (toolNames, initializedNotification)
        else handshakeLoop initId rest true toolNames
      else if pyEqStr (fs.getD (S "method") .null) (S "tools_ready") then
        match toolsOfMsg fs with
        | .error e => .error e
        | .ok tn =>
          if gotInit && pyTruthy tn then .ok (tn, initializedNotification)
          else handshakeLoop initId rest gotInit tn
      else
        if gotInit && pyTruthy toolNames then .ok (toolNames, initializedNotification)
        else handshakeLoop initId rest gotInit toolNames
    | .ok _ => .error .attributeError

/-- `_perform_handshake`'s consumption of stdout lines: the init request is
the first id allocated (`init_id = 1`), the flag starts `False` and
`tool_names` starts `[]`. -/
def performHandshake (lines : List Str) : Except PyErr (Json × Json) :=
  handshakeLoop 1 lines false (jarr [])

/-- The id-allocation step shared by `_perform_handshake` (lines 98-99) and
`call_mcp_tool` (lines 166-167): return the current `request_id`, then
increment it. -/
def allocId (s : Nat) : Nat × Nat := (s, s + 1)

/-- The ids produced by `n` consecutive allocations starting from counter
state `s`. -/
def idTrace : Nat → Nat → List Nat
  | _, 0 => []
  | s, n + 1 => (allocId s).1 :: idTrace (allocId s).2 n

/-- The correlation ids assigned by an `Agent` over its lifetime: `__init__`
sets `request_id = 1` (line 43); every send (the handshake's init request and
each tool call) allocates the next id. -/
def agentIdTrace (n : Nat) : List Nat := idTrace 1 n

end AgentSpec

namespace AgentSpec

/-- The spec's example action envelope as a bare (unfenced) response text. -/
def bareEnvelope : Str :=
  S "\x7b\"action\": \x7b\"tool\": \"messages\", \"arguments\": \x7b\"method\": \"get_unread_messages\", \"params\": \x7b\x7d\x7d\x7d\x7d"

/-- The same envelope wrapped in a ```` ```json ```` fenced block. -/
def fencedEnvelope : Str :=
  S "```json\n\x7b\"action\": \x7b\"tool\": \"messages\", \"arguments\": \x7b\"method\": \"get_unread_messages\", \"params\": \x7b\x7d\x7d\x7d\x7d\n```"

/-- The arguments object of the example tool call. -/
def unreadArgs : Json :=
  jobj [("method", jstr "get_unread_messages"), ("params", jobj [])]

/-- A fenced response dispatching a `__capabilities__` method call. -/
def capabilitiesResponse : Str :=
  S "```json\n\x7b\"tool\": \"messages\", \"arguments\": \x7b\"method\": \"__capabilities__\", \"params\": \x7b\x7d\x7d\x7d\n```"

/-- The arguments object of the `__capabilities__` call. -/
def capArgs : Json :=
  jobj [("method", jstr "__capabilities__"), ("params", jobj [])]

/-- A concrete initialize response line (id 1 is the init request id). -/
def initRespLine : Str :=
  S "\x7b\"jsonrpc\": \"2.0\", \"id\": 1, \"result\": \x7b\x7d\x7d"

/-- A concrete `tools_ready` notification with a non-empty tool list. -/
def toolsReadyLine : Str :=
  S "\x7b\"jsonrpc\": \"2.0\", \"method\": \"tools_ready\", \"params\": \x7b\"tools\": [\"messages\"]\x7d\x7d"

/-- A concrete `tools_ready` notification carrying an empty tool list. -/
def toolsReadyEmptyLine : Str :=
  S "\x7b\"jsonrpc\": \"2.0\", \"method\": \"tools_ready\", \"params\": \x7b\"tools\": []\x7d\x7d"

end AgentSpec

namespace AgentSpec

/-- The span the bare lazy regex actually captures on `bareEnvelope`: from the
first `\x7b` to the *first* `\x7d` — the closing brace of the empty `params`
object — which is not valid JSON. -/
def truncatedSpan : Str :=
  S "\x7b\"action\": \x7b\"tool\": \"messages\", \"arguments\": \x7b\"method\": \"get_unread_messages\", \"params\": \x7b\x7d"

/-- A 20000-character task (no braces, no whitespace): long enough that even
the empty-history prompt exceeds the token ceiling. -/
def hugeTask : Str := List.replicate 20000 'a'

/-- The scan state of `cwAux` after consuming `s` starting from state `b`. -/
def endsInWord (b : Bool) : Str → Bool
  | [] => b
  | c :: rest => endsInWord (!pyIsSpace c) rest

/-- `t` is `s` with one contiguous block of text inserted. -/
def Inserted (s t : Str) : Prop :=
  ∃ a m b, s = a ++ b ∧ t = a ++ m ++ b

/-- Reflexive-transitive closure: `t` is `s` after any number of insertions. -/
abbrev InsertedStar : Str → Str → Prop := Relation.ReflTransGen Inserted

end AgentSpec

namespace AgentSpec

theorem idTrace_eq_range' (n : Nat) : ∀ s, idTrace s n = List.range' s n := by
  induction n with
  | zero => intro s; rfl
  | succ n ih => intro s; simp [idTrace, allocId, ih, List.range']

/-- Claim C9: the correlation ids assigned by the Agent (the handshake's
initialize request and every `call_mcp_tool` dispatch) form the sequence
1, 2, 3, …: strictly increasing, all positive, and each id is used for at
most one request (no duplicates). -/
theorem c9_request_ids (n : Nat) :
    agentIdTrace n = List.range' 1 n ∧
    (agentIdTrace n).Pairwise (· < ·) ∧
    (∀ i ∈ agentIdTrace n, 1 ≤ i) := by
  refine ⟨idTrace_eq_range' n 1, ?_, ?_⟩
  · rw [agentIdTrace, idTrace_eq_range' n 1]
    exact List.pairwise_lt_range' 1 n
  · intro i hi
    rw [agentIdTrace, idTrace_eq_range' n 1, List.mem_range'] at hi
    omega

/-- Witness for C9 at a concrete run of five allocations, naming the id 3. -/
theorem c9_request_ids_witness :
    agentIdTrace 5 = List.range' 1 5 ∧ 1 ≤ 3 := by
  refine ⟨(c9_request_ids 5).1, (c9_request_ids 5).2.2 3 ?_⟩
  rw [(c9_request_ids 5).1]
  decide

/-- Claim C3, counterexample: on the 8-character non-ASCII string
`абвгдеёж` (16 UTF-8 bytes, one word) the source's estimate is
`max(8 // 4, 1) = 2` while the spec's byte-based formula gives
`max(1, 16 // 4) = 4`: `estimate_tokens` divides the code-point count, not
the byte length, by 4. -/
theorem c3_counterexample :
    estimate_tokens (S "абвгдеёж") ≠ estimateSpecBytes (S "абвгдеёж") := by
  decide

/-- Claim C3 as amended: `estimate_tokens` is the pure function
`max(wordCount(s), charCount(s) / 4)` — with the code-point count, not the
byte length — and `estimate(s) >= wordCount(s)` for every non-empty `s`. -/
theorem c3_estimate_chars (t : Str) (_h : t ≠ []) :
    estimate_tokens t = max (countWords t) (t.length / 4) ∧
    countWords t ≤ estimate_tokens t := by
  constructor
  · rw [estimate_tokens, Nat.max_comm]
  · exact Nat.le_max_right _ _

/-- Witness for the amended C3 at `"hello world"`. -/
theorem c3_estimate_chars_witness :
    S "hello world" ≠ [] ∧
    countWords (S "hello world") ≤ estimate_tokens (S "hello world") :=
  ⟨by decide, (c3_estimate_chars (S "hello world") (by decide)).2⟩

end AgentSpec

namespace AgentSpec

theorem runStep_chooseMatch_none (h : List Json) (step : Nat) (resp : Str)
    (oracle : Json → Json → Json) (fb : Str) (corr : Option Str) (disk : Bool)
    (hm : chooseMatch resp = none) :
    runStep h step resp oracle fb corr disk =
      .ok ⟨h ++ [reasoningErrorItem resp], step, [], none, false⟩ := by
  rw [runStep, hm]

theorem runStep_fencedEnvelope (h : List Json) (step : Nat)
    (oracle : Json → Json → Json) (fb : Str) (corr : Option Str) (disk : Bool) :
    runStep h step fencedEnvelope oracle fb corr disk =
      .ok (finishStep
        (h ++ [toolRecord (jstr "messages") unreadArgs (oracle (jstr "messages") unreadArgs)])
        step (jstr "messages") unreadArgs corr disk) :=
  rfl

/-- Claim C4, counterexample: on a response with no parsable JSON object the
loop appends exactly one reasoning-error item but `continue` skips the
`step += 1` at the end of the body, so the step counter stays at 1 instead of
advancing to 2. -/
theorem c4_counterexample :
    runStep [] 1 (S "no json here") (fun _ _ => emptyObj) [] none true =
      .ok ⟨[reasoningErrorItem (S "no json here")], 1, [], none, false⟩ ∧
    (1 : Nat) ≠ 1 + 1 :=
  ⟨rfl, by decide⟩

/-- Claim C4 as amended: given a backend response with no parsable JSON
object, exactly one reasoning-error item is appended to history, nothing is
persisted, no tool is dispatched, and the step counter does **not** advance
(the `continue` bypasses `step += 1`). -/
theorem c4_reasoning_error_no_advance (h : List Json) (step : Nat) (resp : Str)
    (oracle : Json → Json → Json) (fb : Str) (corr : Option Str) (disk : Bool)
    (hm : chooseMatch resp = none) :
    runStep h step resp oracle fb corr disk =
      .ok ⟨h ++ [reasoningErrorItem resp], step, [], none, false⟩ :=
  runStep_chooseMatch_none h step resp oracle fb corr disk hm

/-- Witness for the amended C4 on the response `"plain"`. -/
theorem c4_reasoning_error_no_advance_witness :
    chooseMatch (S "plain") = none ∧
    runStep [] 3 (S "plain") (fun _ _ => emptyObj) [] none true =
      .ok ⟨[reasoningErrorItem (S "plain")], 3, [], none, false⟩ :=
  ⟨rfl, c4_reasoning_error_no_advance [] 3 (S "plain") (fun _ _ => emptyObj) [] none true rfl⟩

end AgentSpec

namespace AgentSpec


/-- Claim C5, counterexample: on a response that is exactly the example
envelope without a code fence, the lazy fallback regex `(\x7b.*?\x7d)` captures
only up to the first closing brace, `json.loads` fails on the truncated span,
and the loop records a parsing error — it does not unwrap the envelope and
dispatches nothing. -/
theorem c5_counterexample :
    chooseMatch bareEnvelope = some truncatedSpan ∧
    runStep [] 1 bareEnvelope (fun _ _ => emptyObj) [] none true =
      .ok ⟨[parsingErrorItemDecode bareEnvelope], 1, [], none, false⟩ :=
  ⟨rfl, rfl⟩

/-- Claim C5 as amended: extraction prefers a fenced ```` ```json ```` block —
whose closing fence anchors the lazy span so nested objects are captured
whole — and otherwise captures from the first opening brace only to the first
closing brace, which cannot cover a nested object.  Given the example
envelope inside a fenced block, the loop unwraps the one-level
`\x7b"action": ...\x7d` envelope and dispatches the tool call with
`tool="messages"`. -/
theorem c5_fenced_dispatch (h : List Json) (step : Nat)
    (oracle : Json → Json → Json) (fb : Str) (corr : Option Str) (disk : Bool) :
    (∀ resp g, regexFenced resp = some g → chooseMatch resp = some g) ∧
    (runStep h step fencedEnvelope oracle fb corr disk).map StepResult.dispatched =
      .ok (some (jstr "messages", unreadArgs)) := by
  constructor
  · intro resp g hg
    rw [chooseMatch, hg]
  · rw [runStep_fencedEnvelope h step oracle fb corr disk]
    cases corr with
    | none => rfl
    | some c =>
      by_cases hc : c.isEmpty
      · simp [finishStep, hc, Except.map]
      · simp [finishStep, hc, Except.map]

/-- Witness for the amended C5: the fenced envelope is matched whole by the
preferred pattern, and the concrete run dispatches `tool="messages"`. -/
theorem c5_fenced_dispatch_witness :
    chooseMatch fencedEnvelope = some (S "\x7b\"action\": \x7b\"tool\": \"messages\", \"arguments\": \x7b\"method\": \"get_unread_messages\", \"params\": \x7b\x7d\x7d\x7d\x7d") ∧
    (runStep [] 1 fencedEnvelope (fun _ _ => emptyObj) [] none true).map StepResult.dispatched =
      .ok (some (jstr "messages", unreadArgs)) :=
  ⟨(c5_fenced_dispatch [] 1 (fun _ _ => emptyObj) [] none true).1 fencedEnvelope _ rfl,
   (c5_fenced_dispatch [] 1 (fun _ _ => emptyObj) [] none true).2⟩

/-- Claim C8, counterexample: an append that is not the tool-record append is
not persisted.  On a response whose extracted span fails to parse, the loop
appends one parsing-error item and performs **zero** writes of
`history.json`, so the history on disk does not reflect the append. -/
theorem c8_counterexample :
    runStep [] 1 (S "\x7bbad\x7d") (fun _ _ => emptyObj) [] none true =
      .ok ⟨[parsingErrorItemDecode (S "\x7bbad\x7d")], 1, [], none, false⟩ ∧
    ([] : List (List Json)) ≠ [[parsingErrorItemDecode (S "\x7bbad\x7d")]] :=
  ⟨rfl, by simp⟩

/-- Claim C8 as amended: `history.json` is fully rewritten exactly once per
completed tool step, with the history as of the tool-record append (a
same-cycle emergency-correction append lands only in the next cycle's write);
error-item appends are not immediately persisted; and a persistence failure
is non-fatal — the in-memory history and step counter are identical whether
or not the write succeeds. -/
theorem c8_tool_step_persistence (h : List Json) (step : Nat)
    (oracle : Json → Json → Json) (fb : Str) (corr : Option Str) :
    (runStep h step fencedEnvelope oracle fb corr true).map StepResult.writes =
      .ok [h ++ [toolRecord (jstr "messages") unreadArgs (oracle (jstr "messages") unreadArgs)]] ∧
    (runStep h step fencedEnvelope oracle fb corr false).map StepResult.writes = .ok [] ∧
    (runStep h step fencedEnvelope oracle fb corr true).map (fun r => (r.history, r.step)) =
      (runStep h step fencedEnvelope oracle fb corr false).map (fun r => (r.history, r.step)) := by
  rw [runStep_fencedEnvelope h step oracle fb corr true,
      runStep_fencedEnvelope h step oracle fb corr false]
  refine ⟨rfl, rfl, ?_⟩
  cases corr with
  | none => rfl
  | some c =>
    by_cases hc : c.isEmpty
    · simp [finishStep, hc, Except.map]
    · simp [finishStep, hc, Except.map]

end AgentSpec

namespace AgentSpec

theorem extractCaps_objs (itemsL : List Json)
    (hobj : ∀ j ∈ itemsL, ∃ fs, j = .obj fs) :
    ∃ caps, extractCaps (JsonList.ofList itemsL) = .ok caps ∧
      (caps = [] ↔ ∀ fs, Json.obj fs ∈ itemsL → fs.hasKey (S "text") = false) := by
  induction itemsL with
  | nil =>
    refine ⟨[], rfl, ?_⟩
    simp
  | cons j tl ih =>
    obtain ⟨fs, rfl⟩ := hobj j (List.mem_cons_self j tl)
    obtain ⟨caps', hc', hiff⟩ := ih (fun x hx => hobj x (List.mem_cons_of_mem _ hx))
    by_cases hk : fs.hasKey (S "text")
    · refine ⟨fs.getD (S "text") .null :: caps', ?_, ?_⟩
      · simp [JsonList.ofList, extractCaps, pyContains, hk, hc']
      · constructor
        · intro h; exact absurd h (by simp)
        · intro hall
          exact absurd (hall fs (List.mem_cons_self _ _)) (by simp [hk])
    · have hkf : fs.hasKey (S "text") = false := by simpa using hk
      refine ⟨caps', ?_, ?_⟩
      · simp only [JsonList.ofList, extractCaps, pyContains, hkf]
        exact hc'
      · rw [hiff]
        constructor
        · intro hall fs2 hmem
          rcases List.mem_cons.mp hmem with heq | hmem2
          · cases heq
            simpa using hk
          · exact hall fs2 hmem2
        · intro hall fs2 hmem
          exact hall fs2 (List.mem_cons_of_mem _ hmem)

theorem runStep_capResponse (h : List Json) (step : Nat)
    (oracle : Json → Json → Json) (fb : Str) (corr : Option Str) (disk : Bool) :
    runStep h step capabilitiesResponse oracle fb corr disk =
      (let result := oracle (jstr "messages") capArgs
       let h1 := h ++ [toolRecord (jstr "messages") capArgs result]
       if pyTruthy result then
         match result with
         | .obj rfs =>
           if !pyTruthy (rfs.getD (S "isError") .null) then
             match rfs.lookup (S "content") with
             | some (.arr items) =>
               match extractCaps items with
               | .error e => .error e
               | .ok caps =>
                 if caps.isEmpty then
                   .ok (finishStep h1 step (jstr "messages") capArgs corr disk)
                 else .error .attributeError
             | _ => .ok (finishStep h1 step (jstr "messages") capArgs corr disk)
           else .ok (finishStep h1 step (jstr "messages") capArgs corr disk)
         | _ => .error .attributeError
       else .ok (finishStep h1 step (jstr "messages") capArgs corr disk)) :=
  rfl

/-- Claim C10: when the dispatched tool call's arguments carry
`method = "__capabilities__"` and the transport returns a non-empty dict
without an `isError` flag whose `content` is a list of dicts, one of which
has a `"text"` key, the learning branch reaches `self.knowledge` — an
attribute `__init__` never creates (`_save_knowledge` likewise does not
exist) — so the loop raises `AttributeError`: the step's record is never
appended to history and the loop terminates instead of recording the
result. -/
theorem c10_capabilities_attribute_error (h : List Json) (step : Nat)
    (oracle : Json → Json → Json) (fb : Str) (corr : Option Str) (disk : Bool)
    (rfs : JsonFields) (itemsL : List Json)
    (hres : oracle (jstr "messages") capArgs = .obj rfs)
    (hne : rfs.hasKey (S "isError") = false)
    (hcontent : rfs.lookup (S "content") = some (jarr itemsL))
    (hobjs : ∀ j ∈ itemsL, ∃ fs2, j = .obj fs2)
    (htext : ∃ fs2, Json.obj fs2 ∈ itemsL ∧ fs2.hasKey (S "text") = true) :
    runStep h step capabilitiesResponse oracle fb corr disk = .error .attributeError := by
  rw [runStep_capResponse]
  simp only [hres]
  have hnil : rfs ≠ .nil := by
    intro hn
    rw [hn] at hcontent
    simp [JsonFields.lookup] at hcontent
  have htr : pyTruthy (.obj rfs) = true := by
    cases rfs with
    | nil => exact absurd rfl hnil
    | cons k v tl => rfl
  rw [htr]
  have hlerr : rfs.lookup (S "isError") = none := by
    rw [JsonFields.hasKey] at hne
    cases hl : rfs.lookup (S "isError") with
    | none => rfl
    | some v => rw [hl] at hne; simp at hne
  have hcontent2 : rfs.lookup (S "content") = some (.arr (JsonList.ofList itemsL)) :=
    hcontent
  simp only [JsonFields.getD, hlerr, Option.getD_none, pyTruthy, hcontent2]
  obtain ⟨caps, hcaps, hiff⟩ := extractCaps_objs itemsL hobjs
  have hne2 : caps ≠ [] := by
    intro hc0
    obtain ⟨fs2, hmem, hk⟩ := htext
    have := (hiff.mp hc0) fs2 hmem
    rw [this] at hk
    exact Bool.false_ne_true hk
  have hie : caps.isEmpty = false := by
    cases caps with
    | nil => exact absurd rfl hne2
    | cons a t => rfl
  simp [hcaps, hie]

/-- Witness for C10: a concrete capabilities result with one `"text"` item
makes the concrete run raise `AttributeError`. -/
theorem c10_capabilities_attribute_error_witness :
    runStep [] 1 capabilitiesResponse
      (fun _ _ => jobj [("content", jarr [jobj [("text", jstr "cap1")]])])
      [] none true = .error .attributeError :=
  c10_capabilities_attribute_error [] 1
    (fun _ _ => jobj [("content", jarr [jobj [("text", jstr "cap1")]])])
    [] none true
    (JsonFields.ofList [(S "content", jarr [jobj [("text", jstr "cap1")]])])
    [jobj [("text", jstr "cap1")]]
    rfl rfl rfl
    (by
      intro j hj
      rw [List.mem_singleton] at hj
      exact ⟨_, hj⟩)
    ⟨JsonFields.ofList [(S "text", jstr "cap1")], by simp [jobj], rfl⟩

end AgentSpec

namespace AgentSpec

/-- Claim C6, counterexample: a queue line that *does* parse as JSON but is
not an object — here the line `7` — makes `response.get('id')` raise
`AttributeError`, which `_wait_for_response` does not catch: the function is
not exception-free. -/
theorem c6_counterexample :
    waitForResponse 1 [S "7"] = .error .attributeError :=
  rfl

/-- Claim C6 as amended: provided every parsable queue line is a JSON
*object*, `_wait_for_response` never raises; it skips lines that fail to
parse, drops parsed objects whose id does not match, returns the matched
response's `result` (default `\x7b\x7d`) immediately on an id match without an
`error` field, and returns the empty-dict marker both when the match carries
an `error` field and when the lines run out (the timeout). -/
theorem c6_wait_for_response (rid : Int) :
    (∀ lines : List Str,
       (∀ l ∈ lines, ∀ v, loads l = .ok v → ∃ fs, v = .obj fs) →
       ∃ v, waitForResponse rid lines = .ok v) ∧
    (waitForResponse rid [] = .ok emptyObj) ∧
    (∀ (l : Str) (rest : List Str), loads l = .error () →
       waitForResponse rid (l :: rest) = waitForResponse rid rest) ∧
    (∀ (l : Str) (rest : List Str) (fs : JsonFields),
       loads l = .ok (.obj fs) → pyEqInt (fs.getD (S "id") .null) rid = false →
       waitForResponse rid (l :: rest) = waitForResponse rid rest) ∧
    (∀ (l : Str) (rest : List Str) (fs : JsonFields),
       loads l = .ok (.obj fs) → pyEqInt (fs.getD (S "id") .null) rid = true →
       fs.hasKey (S "error") = true →
       waitForResponse rid (l :: rest) = .ok emptyObj) ∧
    (∀ (l : Str) (rest : List Str) (fs : JsonFields),
       loads l = .ok (.obj fs) → pyEqInt (fs.getD (S "id") .null) rid = true →
       fs.hasKey (S "error") = false →
       waitForResponse rid (l :: rest) = .ok (fs.getD (S "result") emptyObj)) := by
  refine ⟨?_, rfl, ?_, ?_, ?_, ?_⟩
  · intro lines
    induction lines with
    | nil => exact fun _ => ⟨emptyObj, rfl⟩
    | cons l rest ih =>
      intro hall
      cases hl : loads l with
      | error e =>
        cases e
        simp only [waitForResponse, hl]
        exact ih fun x hx => hall x (List.mem_cons_of_mem _ hx)
      | ok v =>
        obtain ⟨fs, rfl⟩ := hall l (List.mem_cons_self _ _) v hl
        simp only [waitForResponse, hl]
        by_cases hid : pyEqInt (fs.getD (S "id") .null) rid = true
        · rw [if_pos hid]
          by_cases herr : fs.hasKey (S "error") = true
          · rw [if_pos herr]; exact ⟨emptyObj, rfl⟩
          · rw [if_neg herr]; exact ⟨fs.getD (S "result") emptyObj, rfl⟩
        · rw [if_neg hid]
          exact ih fun x hx => hall x (List.mem_cons_of_mem _ hx)
  · intro l rest hl
    simp only [waitForResponse, hl]
  · intro l rest fs hl hid
    simp only [waitForResponse, hl]
    rw [if_neg (by simp [hid])]
  · intro l rest fs hl hid herr
    simp only [waitForResponse, hl]
    rw [if_pos hid, if_pos herr]
  · intro l rest fs hl hid herr
    simp only [waitForResponse, hl]
    rw [if_pos hid, if_neg (by simp [herr])]

/-- Witness for the amended C6: a stream with one junk line and one matching
response returns without raising. -/
theorem c6_wait_for_response_witness :
    ∃ v, waitForResponse 2 [S "junk", S "\x7b\"id\": 2, \"result\": 5\x7d"] = .ok v :=
  (c6_wait_for_response 2).1 [S "junk", S "\x7b\"id\": 2, \"result\": 5\x7d"]
    (by
      intro l hl v hv
      rcases List.mem_cons.mp hl with rfl | hl2
      · have hjunk : loads (S "junk") = .error () := rfl
        rw [hjunk] at hv
        exact Except.noConfusion hv
      · rw [List.mem_singleton] at hl2
        subst hl2
        have hline : loads (S "\x7b\"id\": 2, \"result\": 5\x7d") =
            .ok (.obj (.cons (S "id") (.num 2) (.cons (S "result") (.num 5) .nil))) := rfl
        rw [hline] at hv
        cases hv
        exact ⟨_, rfl⟩)

/-- Claim C7, counterexample: when the `tools_ready` notification carries an
*empty* tool list, both awaited events have been observed, yet the break
condition `got_init_response and tool_names` stays false (an empty list is
falsy), so the handshake times out instead of reaching Ready. -/
theorem c7_counterexample :
    performHandshake [initRespLine, toolsReadyEmptyLine] = .error .runtimeError :=
  rfl

/-- Claim C7 as amended: for a stream consisting of the initialize response
(matching id 1) and a `tools_ready` notification whose tool list is truthy
(non-empty), the handshake reaches Ready in either arrival order, returns
that tool list and sends the `initialized` notification; Ready requires both
observations, and an empty tool list leads to the timeout instead. -/
theorem c7_handshake_order (lineA lineB : Str) (fsA fsB : JsonFields) (tn : Json)
    (hA : loads lineA = .ok (.obj fsA))
    (hAid : pyEqInt (fsA.getD (S "id") .null) 1 = true)
    (hB : loads lineB = .ok (.obj fsB))
    (hBid : pyEqInt (fsB.getD (S "id") .null) 1 = false)
    (hBm : pyEqStr (fsB.getD (S "method") .null) (S "tools_ready") = true)
    (hBt : toolsOfMsg fsB = .ok tn)
    (htn : pyTruthy tn = true) :
    performHandshake [lineA, lineB] = .ok (tn, initializedNotification) ∧
    performHandshake [lineB, lineA] = .ok (tn, initializedNotification) := by
  constructor
  · simp only [performHandshake, handshakeLoop, hA]
    rw [if_pos hAid, if_neg (by decide)]
    simp only [handshakeLoop, hB]
    rw [if_neg (by simp [hBid]), if_pos hBm]
    simp only [hBt]
    simp [htn]
  · simp only [performHandshake, handshakeLoop, hB]
    rw [if_neg (by simp [hBid]), if_pos hBm]
    simp only [hBt]
    rw [if_neg (by simp)]
    simp only [handshakeLoop, hA]
    rw [if_pos hAid, if_pos htn]

/-- Witness for the amended C7: the concrete init-response and non-empty
`tools_ready` lines reach Ready in both orders. -/
theorem c7_handshake_order_witness :
    performHandshake [initRespLine, toolsReadyLine] =
      .ok (jarr [jstr "messages"], initializedNotification) ∧
    performHandshake [toolsReadyLine, initRespLine] =
      .ok (jarr [jstr "messages"], initializedNotification) :=
  c7_handshake_order initRespLine toolsReadyLine
    (.cons (S "jsonrpc") (jstr "2.0") (.cons (S "id") (.num 1)
      (.cons (S "result") (.obj .nil) .nil)))
    (.cons (S "jsonrpc") (jstr "2.0") (.cons (S "method") (jstr "tools_ready")
      (.cons (S "params") (.obj (.cons (S "tools")
        (.arr (.cons (jstr "messages") .nil)) .nil)) .nil)))
    (jarr [jstr "messages"])
    rfl rfl rfl rfl rfl rfl rfl

end AgentSpec

namespace AgentSpec


theorem cwAux_append (s : Str) : ∀ (b : Bool) (t : Str),
    cwAux b (s ++ t) = cwAux b s + cwAux (endsInWord b s) t := by
  induction s with
  | nil => intro b t; simp [cwAux, endsInWord]
  | cons c rest ih =>
    intro b t
    by_cases hc : pyIsSpace c
    · simp [cwAux, endsInWord, hc, ih]
    · simp [cwAux, endsInWord, hc, ih, Nat.add_assoc]

theorem cwAux_flag (t : Str) :
    cwAux true t ≤ cwAux false t ∧ cwAux false t ≤ cwAux true t + 1 := by
  induction t with
  | nil => exact ⟨Nat.le_refl 0, Nat.le_succ 0⟩
  | cons c rest ih =>
    by_cases hc : pyIsSpace c
    · simp only [cwAux, hc, if_true]
      exact ⟨Nat.le_refl _, Nat.le_succ _⟩
    · simp [cwAux, hc]
      omega

theorem cwAux_endsInWord_one (t : Str) (h : endsInWord false t = true) :
    1 ≤ cwAux false t := by
  induction t with
  | nil => simp [endsInWord] at h
  | cons c rest ih =>
    by_cases hc : pyIsSpace c
    · rw [endsInWord] at h
      rw [hc] at h
      simp only [Bool.not_true] at h
      simp only [cwAux, hc, if_true]
      exact ih h
    · simp only [cwAux, hc, if_false, Bool.false_eq_true]
      omega

theorem cwAux_insert_ge (e : Bool) (t s2 : Str) :
    cwAux e s2 ≤ cwAux e t + cwAux (endsInWord e t) s2 := by
  cases e
  · cases he : endsInWord false t
    · exact Nat.le_add_left _ _
    · have h1 := cwAux_endsInWord_one t he
      have h2 := (cwAux_flag s2).2
      omega
  · cases he : endsInWord true t
    · have h1 := (cwAux_flag s2).1
      omega
    · exact Nat.le_add_left _ _

theorem countWords_insert (s1 t s2 : Str) :
    countWords (s1 ++ s2) ≤ countWords (s1 ++ t ++ s2) := by
  rw [countWords, countWords, List.append_assoc, cwAux_append s1, cwAux_append s1,
      cwAux_append t]
  have := cwAux_insert_ge (endsInWord false s1) t s2
  omega


theorem countWords_le_of_inserted {s t : Str} (h : Inserted s t) :
    countWords s ≤ countWords t := by
  obtain ⟨a, m, b, rfl, rfl⟩ := h
  exact countWords_insert a m b

theorem length_le_of_inserted {s t : Str} (h : Inserted s t) :
    s.length ≤ t.length := by
  obtain ⟨a, m, b, rfl, rfl⟩ := h
  simp only [List.length_append]
  omega

theorem estimate_le_of_inserted {s t : Str} (h : Inserted s t) :
    estimate_tokens s ≤ estimate_tokens t :=
  max_le_max (Nat.div_le_div_right (length_le_of_inserted h))
    (countWords_le_of_inserted h)

theorem estimate_le_of_insertedStar {s t : Str} (h : InsertedStar s t) :
    estimate_tokens s ≤ estimate_tokens t := by
  induction h with
  | refl => exact Nat.le_refl _
  | tail _ h2 ih => exact Nat.le_trans ih (estimate_le_of_inserted h2)

theorem inserted_append_left (c : Str) {s t : Str} (h : Inserted s t) :
    Inserted (c ++ s) (c ++ t) := by
  obtain ⟨a, m, b, rfl, rfl⟩ := h
  exact ⟨c ++ a, m, b, by simp, by simp⟩

theorem insertedStar_append_left (c : Str) {s t : Str} (h : InsertedStar s t) :
    InsertedStar (c ++ s) (c ++ t) := by
  induction h with
  | refl => exact Relation.ReflTransGen.refl
  | tail _ h2 ih => exact Relation.ReflTransGen.tail ih (inserted_append_left c h2)

theorem inserted_append_right {s t : Str} (h : Inserted s t) (c : Str) :
    Inserted (s ++ c) (t ++ c) := by
  obtain ⟨a, m, b, rfl, rfl⟩ := h
  exact ⟨a, m, b ++ c, by simp, by simp⟩

end AgentSpec

namespace AgentSpec

theorem pyReplaceAux_insertedStar (old : Str) {g g' : Str} (hi : Inserted g g') :
    ∀ (fuel : Nat) (T : Str),
      InsertedStar (pyReplaceAux old g fuel T) (pyReplaceAux old g' fuel T) := by
  intro fuel
  induction fuel with
  | zero =>
    intro T
    cases T with
    | nil => exact Relation.ReflTransGen.refl
    | cons c rest => exact Relation.ReflTransGen.refl
  | succ fuel ih =>
    intro T
    cases T with
    | nil => exact Relation.ReflTransGen.refl
    | cons c rest =>
      by_cases hp : old.isPrefixOf (c :: rest)
      · simp only [pyReplaceAux, if_pos hp]
        refine Relation.ReflTransGen.tail
          (insertedStar_append_left g (ih (rest.drop (old.length - 1)))) ?_
        obtain ⟨a, m, b, rfl, rfl⟩ := hi
        exact ⟨a, m, b ++ pyReplaceAux old (a ++ m ++ b) fuel (rest.drop (old.length - 1)),
          by simp, by simp⟩
      · simp only [pyReplaceAux, if_neg hp]
        exact insertedStar_append_left [c] (ih rest)

theorem dumpsTop_cons_inserted (x : Json) (l : List Json) :
    Inserted (dumpsTop l) (dumpsTop (x :: l)) := by
  cases l with
  | nil =>
    refine ⟨['['], '\n' :: (dumpsItems 1 (.cons x .nil) ++ ['\n']), [']'], by rfl, ?_⟩
    show dumpsVal 0 (.arr (.cons x .nil)) = _
    simp [dumpsVal, pad]
  | cons y ys =>
    refine ⟨['[', '\n'], pad 1 ++ dumpsVal 1 x ++ [',', '\n'],
      dumpsItems 1 (.cons y (JsonList.ofList ys)) ++ '\n' :: pad 0 ++ [']'], ?_, ?_⟩
    · show dumpsVal 0 (.arr (.cons y (JsonList.ofList ys))) = _
      simp [dumpsVal]
    · show dumpsVal 0 (.arr (.cons x (.cons y (JsonList.ofList ys)))) = _
      simp [dumpsVal, dumpsItems]

theorem renderPrompt_cons_le (task : Str) (x : Json) (l : List Json) :
    estimate_tokens (renderPrompt task l) ≤ estimate_tokens (renderPrompt task (x :: l)) := by
  apply estimate_le_of_insertedStar
  rw [renderPrompt, renderPrompt, pyReplace, pyReplace]
  exact pyReplaceAux_insertedStar historyPlaceholder (dumpsTop_cons_inserted x l)
    (basePromptTemplate task).length (basePromptTemplate task)

end AgentSpec

namespace AgentSpec

theorem cwAux_le_length (t : Str) : ∀ b, cwAux b t ≤ t.length := by
  induction t with
  | nil => intro b; exact Nat.le_refl 0
  | cons c rest ih =>
    intro b
    by_cases hc : pyIsSpace c
    · simp only [cwAux, hc, if_true, List.length_cons]
      exact Nat.le_succ_of_le (ih false)
    · simp only [cwAux, hc, List.length_cons]
      have := ih true
      cases b <;> simp <;> omega

theorem estimate_le_length (t : Str) : estimate_tokens t ≤ t.length := by
  rw [estimate_tokens]
  exact max_le (Nat.div_le_self _ _) (cwAux_le_length t false)

theorem limitedLoop_spec (C : Nat) (task : Str) :
    ∀ (rev acc : List Json),
      ∃ j, j ≤ rev.length ∧
        limitedLoop C task rev acc = (rev.take j).reverse ++ acc ∧
        (∀ i, 1 ≤ i → i ≤ j →
          estimate_tokens (renderPrompt task ((rev.take i).reverse ++ acc)) ≤ C) ∧
        (j < rev.length →
          ¬ estimate_tokens (renderPrompt task ((rev.take (j + 1)).reverse ++ acc)) ≤ C) := by
  intro rev
  induction rev with
  | nil =>
    intro acc
    exact ⟨0, Nat.le_refl 0, rfl, fun i h1 h2 => by omega, fun h => by simp at h⟩
  | cons item rest ih =>
    intro acc
    by_cases hfit : estimate_tokens (renderPrompt task (item :: acc)) ≤ C
    · obtain ⟨j', hj'le, heq, hok, hfail⟩ := ih (item :: acc)
      refine ⟨j' + 1, by simp; omega, ?_, ?_, ?_⟩
      · rw [limitedLoop, if_pos hfit, heq]
        simp [List.take_succ_cons, List.reverse_cons, List.append_assoc]
      · intro i h1 h2
        cases i with
        | zero => omega
        | succ i0 =>
          simp only [List.take_succ_cons, List.reverse_cons, List.append_assoc,
            List.singleton_append]
          cases Nat.eq_zero_or_pos i0 with
          | inl h0 =>
            subst h0
            simpa using hfit
          | inr hpos =>
            exact hok i0 hpos (by omega)
      · intro hlt
        have hlt' : j' < rest.length := by
          simp only [List.length_cons] at hlt
          omega
        have hf := hfail hlt'
        simp only [List.take_succ_cons, List.reverse_cons, List.append_assoc,
          List.singleton_append]
        exact hf
    · refine ⟨0, Nat.zero_le _, ?_, fun i h1 h2 => by omega, fun _ => ?_⟩
      · rw [limitedLoop, if_neg hfit]
        simp
      · simpa using hfit

theorem reverse_take_reverse_eq_drop {α : Type} (l : List α) (j : Nat) :
    (l.reverse.take j).reverse = l.drop (l.length - j) :=
  (List.rtake_eq_reverse_take_reverse l j).symm.trans (by rw [List.rtake])

theorem limitedHistory_spec (C : Nat) (task : Str) (history : List Json) :
    ∃ j, j ≤ history.length ∧
      limitedHistory C task history = history.drop (history.length - j) ∧
      (limitedHistory C task history).length = j ∧
      (∀ i, 1 ≤ i → i ≤ j →
        estimate_tokens (renderPrompt task (history.drop (history.length - i))) ≤ C) ∧
      (j < history.length →
        ¬ estimate_tokens
            (renderPrompt task (history.drop (history.length - (j + 1)))) ≤ C) := by
  obtain ⟨j, hjle, heq, hok, hfail⟩ := limitedLoop_spec C task history.reverse []
  rw [List.length_reverse] at hjle
  have hdrop : ∀ i, (history.reverse.take i).reverse ++ ([] : List Json) =
      history.drop (history.length - i) := by
    intro i
    rw [List.append_nil, reverse_take_reverse_eq_drop]
  refine ⟨j, hjle, ?_, ?_, ?_, ?_⟩
  · rw [limitedHistory, heq, hdrop]
  · rw [limitedHistory, heq, hdrop, List.length_drop]
    omega
  · intro i h1 h2
    have := hok i h1 h2
    rwa [hdrop] at this
  · intro hlt
    have := hfail (by rwa [List.length_reverse])
    rwa [hdrop] at this

theorem suffix_estimate_mono (task : Str) (history : List Json) :
    ∀ (j i : Nat), i ≤ j → j ≤ history.length →
      estimate_tokens (renderPrompt task (history.drop (history.length - i))) ≤
        estimate_tokens (renderPrompt task (history.drop (history.length - j))) := by
  intro j
  induction j with
  | zero =>
    intro i hij hn
    have : i = 0 := Nat.le_zero.mp hij
    subst this
    exact Nat.le_refl _
  | succ j ihj =>
    intro i hij hn
    cases Nat.lt_or_ge i (j + 1) with
    | inl hlt =>
      have hstep : estimate_tokens (renderPrompt task (history.drop (history.length - j))) ≤
          estimate_tokens (renderPrompt task (history.drop (history.length - (j + 1)))) := by
        have hidx : history.length - (j + 1) < history.length := by omega
        have hsucc : history.length - (j + 1) + 1 = history.length - j := by omega
        rw [List.drop_eq_getElem_cons hidx, hsucc]
        exact renderPrompt_cons_le task _ _
      exact Nat.le_trans (ihj i (by omega) (by omega)) hstep
    | inr hge =>
      have : i = j + 1 := by omega
      subst this
      exact Nat.le_refl _

/-- Claim C2: for every ceiling `C`, task, and history, the set of history
items included in the budgeted prompt (`limited_history`) is a chronologically
contiguous suffix of history (kept in original order, no gaps), and a
non-empty suffix of length `j` fits the ceiling precisely when `j` is at most
the number of kept items — so the kept suffix is the longest one whose
serialized prompt stays within the ceiling, items being accepted newest-first
until the first one that would exceed it.  Whenever
`_create_reasoning_prompt` returns a prompt, that prompt is exactly the
template rendered with the kept suffix. -/
theorem c2_budget_longest_suffix (C : Nat) (task : Str) (history : List Json) :
    (∃ k, limitedHistory C task history = history.drop k) ∧
    (∀ j, 1 ≤ j → j ≤ history.length →
      (estimate_tokens (renderPrompt task (history.drop (history.length - j))) ≤ C ↔
        j ≤ (limitedHistory C task history).length)) ∧
    (∀ p r k, createReasoningPrompt task history = .ok (p, r, k) →
      p = renderPrompt task (limitedHistory maxContextTokens task history)) := by
  obtain ⟨j, hjle, heq, hlen, hok, hfail⟩ := limitedHistory_spec C task history
  refine ⟨⟨history.length - j, heq⟩, ?_, ?_⟩
  · intro i h1 h2
    rw [hlen]
    constructor
    · intro hfit
      by_contra hgt
      push_neg at hgt
      have hjn : j < history.length := by omega
      have hmono := suffix_estimate_mono task history i (j + 1) (by omega) (by omega)
      exact hfail hjn (Nat.le_trans hmono hfit)
    · intro hle
      exact hok i h1 hle
  · intro p r k hcr
    rw [createReasoningPrompt] at hcr
    split at hcr
    · exact absurd hcr (by simp)
    · injection hcr with hcr1
      injection hcr1 with h1 h2
      exact h1.symm

end AgentSpec

namespace AgentSpec

/-- Witness for C2: with a generous ceiling a one-item history is kept whole,
obtained by instantiating the suffix characterization at `j = 1`. -/
theorem c2_budget_longest_suffix_witness :
    limitedHistory 1000000 (S "") [emptyObj] = [emptyObj] := by
  obtain ⟨⟨k, hk⟩, hiff, _⟩ := c2_budget_longest_suffix 1000000 (S "") [emptyObj]
  have hfit : estimate_tokens
      (renderPrompt (S "") (([emptyObj] : List Json).drop
        (([emptyObj] : List Json).length - 1))) ≤ 1000000 :=
    Nat.le_trans (estimate_le_length _) (by decide)
  have h1 : 1 ≤ (limitedHistory 1000000 (S "") [emptyObj]).length :=
    (hiff 1 (Nat.le_refl 1) (by decide)).mp hfit
  cases k with
  | zero => simpa using hk
  | succ k2 =>
    rw [hk] at h1
    simp at h1

end AgentSpec

namespace AgentSpec


theorem isPrefixOf_placeholder_false {c : Char} (hc : c ≠ '\x7b') (t : Str) :
    historyPlaceholder.isPrefixOf (c :: t) = false := by
  have hph : historyPlaceholder = '\x7b' :: S "HISTORY_PLACEHOLDER\x7d" := rfl
  rw [hph, List.isPrefixOf]
  simp [beq_eq_false_iff_ne, Ne.symm hc]

theorem pyReplaceAux_skip_no_brace (new : Str) :
    ∀ (a : Str) (fuel : Nat) (b : Str), (∀ c ∈ a, c ≠ '\x7b') →
      pyReplaceAux historyPlaceholder new (a.length + fuel) (a ++ b) =
        a ++ pyReplaceAux historyPlaceholder new fuel b := by
  intro a
  induction a with
  | nil => intro fuel b _; simp
  | cons c a2 ih =>
    intro fuel b hno
    have hc : c ≠ '\x7b' := hno c (List.mem_cons_self _ _)
    have hlen : (c :: a2).length + fuel = (a2.length + fuel) + 1 := by
      simp only [List.length_cons]
      omega
    rw [hlen]
    show pyReplaceAux historyPlaceholder new ((a2.length + fuel) + 1) (c :: (a2 ++ b)) = _
    rw [pyReplaceAux, if_neg (by simp [isPrefixOf_placeholder_false hc]),
        ih fuel b (fun x hx => hno x (List.mem_cons_of_mem _ hx))]
    rfl

theorem pyReplaceAux_id_of_no_occurrence (old new : Str) :
    ∀ (fuel : Nat) (t : Str), occursIn old t = false →
      pyReplaceAux old new fuel t = t := by
  intro fuel
  induction fuel with
  | zero =>
    intro t _
    cases t with
    | nil => rfl
    | cons c rest => rfl
  | succ fuel ih =>
    intro t hno
    cases t with
    | nil => rfl
    | cons c rest =>
      rw [occursIn] at hno
      simp only [Bool.or_eq_false_iff] at hno
      rw [pyReplaceAux, if_neg (by simp [hno.1]), ih rest hno.2]

theorem pyReplaceAux_at_placeholder (new post : Str) (fuel : Nat)
    (hpost : occursIn historyPlaceholder post = false) :
    pyReplaceAux historyPlaceholder new (fuel + 1) (historyPlaceholder ++ post) =
      new ++ post := by
  show pyReplaceAux historyPlaceholder new (fuel + 1)
      ('\x7b' :: (S "HISTORY_PLACEHOLDER\x7d" ++ post)) = new ++ post
  rw [pyReplaceAux]
  rw [if_pos ?hpre]
  case hpre =>
    have heq : ('\x7b' :: (S "HISTORY_PLACEHOLDER\x7d" ++ post)) =
        historyPlaceholder ++ post := rfl
    rw [heq, List.isPrefixOf_iff_prefix]
    exact List.prefix_append _ _
  have hdrop : (S "HISTORY_PLACEHOLDER\x7d" ++ post).drop (historyPlaceholder.length - 1) =
      post := by
    have h20 : historyPlaceholder.length - 1 = (S "HISTORY_PLACEHOLDER\x7d").length := by
      decide
    rw [h20, List.drop_left]
  rw [hdrop, pyReplaceAux_id_of_no_occurrence historyPlaceholder new fuel post hpost]

theorem renderPrompt_hugeTask_empty :
    renderPrompt hugeTask [] = templatePre hugeTask ++ (S "[]" ++ templatePost) := by
  have hno : ∀ c ∈ templatePre hugeTask, c ≠ '\x7b' := by
    intro c hcm heq
    subst heq
    rw [templatePre] at hcm
    simp only [List.mem_append] at hcm
    rcases hcm with ((((h | h) | h) | h) | h)
    · revert h; decide
    · exact absurd (List.eq_of_mem_replicate h) (by decide)
    · revert h; decide
    · revert h; decide
    · revert h; decide
  have hpost : occursIn historyPlaceholder templatePost = false := by decide
  rw [renderPrompt, pyReplace, basePromptTemplate, List.append_assoc, List.length_append,
      pyReplaceAux_skip_no_brace (dumpsTop []) (templatePre hugeTask)
        (historyPlaceholder ++ templatePost).length (historyPlaceholder ++ templatePost) hno]
  have hfuel : (historyPlaceholder ++ templatePost).length =
      (20 + templatePost.length) + 1 := by
    rw [List.length_append]
    have h21 : historyPlaceholder.length = 21 := by decide
    omega
  rw [hfuel, pyReplaceAux_at_placeholder (dumpsTop []) templatePost
      (20 + templatePost.length) hpost]
  rfl

/-- Claim C1 (code bug): a task long enough that even the empty-history
prompt exceeds the ceiling drives `_create_reasoning_prompt` into the
fallback branch (line 241), where evaluating the `minimal_prompt` f-string
raises `ValueError` — line 268 contains `\x7b"action": \x7b...\x7d\x7d` with single
braces, which Python parses as a replacement field `"action"` with format
spec ` Ellipsis` — so the forced-minimal prompt is never returned, let alone
reported as a reset. -/
theorem c1_fallback_raises_value_error :
    createReasoningPrompt hugeTask [] = .error .valueError := by
  have hL : limitedHistory maxContextTokens hugeTask [] = [] := rfl
  have hcond : maxContextTokens <
      estimate_tokens (renderPrompt hugeTask (limitedHistory maxContextTokens hugeTask [])) := by
    rw [hL, renderPrompt_hugeTask_empty]
    have hlen : 20000 ≤ (templatePre hugeTask ++ (S "[]" ++ templatePost)).length := by
      simp only [templatePre, List.length_append, hugeTask, List.length_replicate]
      omega
    have hdiv : (20000 : Nat) / 4 ≤
        (templatePre hugeTask ++ (S "[]" ++ templatePost)).length / 4 :=
      Nat.div_le_div_right hlen
    have h54 : (20000 : Nat) / 4 = 5000 := by norm_num
    rw [h54] at hdiv
    have hest := Nat.le_max_left
      ((templatePre hugeTask ++ (S "[]" ++ templatePost)).length / 4)
      (countWords (templatePre hugeTask ++ (S "[]" ++ templatePost)))
    have hmax : maxContextTokens = 4965 := by decide
    rw [estimate_tokens]
    omega
  rw [createReasoningPrompt, if_pos hcond]

end AgentSpec
